import Mathlib

set_option maxRecDepth 16384

/-!
# Verification of `scrape_memorial.py`

A shallow embedding of the Find-a-Grave memorial scraping script
(`src/scrape_memorial.py`).  The script is a linear pipeline:

* parse the fetched page with BeautifulSoup (`html.parser`),
* locate the `<script>` element declaring `var findagrave = {...}`,
* isolate the object literal with a regular expression and evaluate it,
* build a flat record of main fields (cleaning the full name of
  presentational `<span class="prefix">` markup),
* extract biography / attribution / plot / inscription / family sections,
* drop four free-text columns and write a one-row spreadsheet.

The embedding models the HTML parsing done by BeautifulSoup's
`html.parser` builder (tokenizer with CDATA handling for `script`/`style`
elements, character-reference decoding of text data, tree building with
unmatched-end-tag recovery), the two regular expressions of step 3, the
JavaScript object-literal evaluation done by `js2py` (a JSON-like literal
grammar; `undefined`/`null` become Python `None`), and the per-step
`try`/`except` structure of the script, including the name-resolution
error that occurs in later steps when the `main_fields` dictionary was
never assigned.
-/

namespace Scrape

/-! ## Python string helpers -/

/-- Whitespace characters recognised by Python's `str.strip()` and by the
`\s` class of the `re` module (ASCII subset). -/
def pySpace (c : Char) : Bool :=
  c == ' ' || c == '\t' || c == '\n' || c == '\r' ||
  c == Char.ofNat 11 || c == Char.ofNat 12

/-- Python `str.strip()` on a character list: drop leading and trailing whitespace. -/
def stripChars (l : List Char) : List Char :=
  ((l.dropWhile pySpace).reverse.dropWhile pySpace).reverse

/-- Python `str.strip()`. -/
def pyStrip (s : String) : String := String.mk (stripChars s.data)

/-- ASCII lower-casing of a character list (HTML tag and attribute names
are lower-cased by `html.parser`). -/
def lowerChars (l : List Char) : List Char := l.map Char.toLower

/-- The `{` character (written via its code so that object-literal text in
this file stays readable). -/
def lbrace : Char := Char.ofNat 123

/-- The `}` character. -/
def rbrace : Char := Char.ofNat 125

/-! ## Scalar values

Values carried by the structured payload and by the record.  `js2py`
converts JavaScript `null` and `undefined` both to Python `None`,
modelled by `vnone`.  Non-integral numbers are carried by their literal
text (`vdec`); the script never computes with numbers, it only copies
them into the output row. -/

inductive Val where
  | vstr (s : String)
  | vint (n : Int)
  | vdec (s : String)
  | vbool (b : Bool)
  | vnone
  | varr (xs : List Val)
  | vobj (kvs : List (String × Val))

/-- A Python dictionary with string keys: insertion-ordered association
list.  Used both for the deserialized `findagrave` payload and for the
`main_fields` record. -/
abbrev Rec := List (String × Val)

/-- Dictionary lookup (`d[k]`, as an option). -/
def Rec.get : Rec → String → Option Val
  | [], _ => none
  | (k', v) :: rest, k => if k' == k then some v else Rec.get rest k

/-- Dictionary assignment `d[k] = v`: replaces in place, appends if new. -/
def Rec.set : Rec → String → Val → Rec
  | [], k, v => [(k, v)]
  | (k', v') :: rest, k, v =>
    if k' == k then (k', v) :: rest else (k', v') :: Rec.set rest k v

/-! ## The HTML document tree -/

inductive Node where
  | text (s : String)
  | elem (tag : String) (attrs : List (String × String)) (children : List Node)

/-- First value of an attribute, if present. -/
def attrsGet : List (String × String) → String → Option String
  | [], _ => none
  | (k', v) :: rest, k => if k' == k then some v else attrsGet rest k

/-- Worker for `splitClasses`: accumulates the current word (reversed). -/
def splitClassesGo : List Char → List Char → List (List Char)
  | [], acc => if acc.isEmpty then [] else [acc.reverse]
  | c :: rest, acc =>
    if pySpace c then
      if acc.isEmpty then splitClassesGo rest [] else acc.reverse :: splitClassesGo rest []
    else splitClassesGo rest (c :: acc)

/-- Split a `class` attribute value on whitespace (BeautifulSoup treats
`class` as a multi-valued attribute). -/
def splitClasses (l : List Char) : List (List Char) :=
  splitClassesGo l []

/-- Does a `class` attribute list contain the given class name? -/
def attrsHaveClass (attrs : List (String × String)) (cls : String) : Bool :=
  match attrsGet attrs "class" with
  | some v => (splitClasses v.data).contains cls.data
  | none => false

def Node.children : Node → List Node
  | .text _ => []
  | .elem _ _ cs => cs

/-- Is the node an element with the given (lower-case) tag name? -/
def isElemNamed (n : Node) (t : String) : Bool :=
  match n with
  | .elem tag _ _ => tag == t
  | .text _ => false

/-- Model of the `find(name, id=v)`-style attribute test. -/
def hasIdAttr (n : Node) (v : String) : Bool :=
  match n with
  | .elem _ attrs _ => attrsGet attrs "id" == some v
  | .text _ => false

/-- Exact-value attribute test, as in `find("div", {"data-relationship": r})`. -/
def attrEqualsV (n : Node) (k v : String) : Bool :=
  match n with
  | .elem _ attrs _ => attrsGet attrs k == some v
  | .text _ => false

/-- Attribute-presence test, as in `find_all("a", href=True)`. -/
def hasAttrKey (n : Node) (k : String) : Bool :=
  match n with
  | .elem _ attrs _ => (attrsGet attrs k).isSome
  | .text _ => false

/-- Model of `class_=cls` matching (membership in the whitespace-split class list). -/
def hasClassAttr (n : Node) (cls : String) : Bool :=
  match n with
  | .elem _ attrs _ => attrsHaveClass attrs cls
  | .text _ => false

/-- BeautifulSoup's `.string`: defined when the tag has exactly one child
that is a string, or exactly one child tag (recursively). -/
def nodeString : Node → Option String
  | .text s => some s
  | .elem _ _ [Node.text s] => some s
  | .elem _ _ [c] => nodeString c
  | .elem _ _ _ => none

mutual
/-- Preorder search of one subtree: the node itself, then its descendants. -/
def findNode (p : Node → Bool) : Node → Option Node
  | .text s => if p (.text s) then some (.text s) else none
  | .elem t a cs =>
    if p (.elem t a cs) then some (.elem t a cs) else findF p cs

/-- Model of `soup.find(...)`: first node of the forest, in document (preorder)
order, satisfying the predicate.  Called on a tag's children it is that
tag's descendant search. -/
def findF (p : Node → Bool) : List Node → Option Node
  | [] => none
  | n :: ns =>
    match findNode p n with
    | some r => some r
    | none => findF p ns
end

mutual
/-- All matches within one subtree, in document (preorder) order. -/
def findAllNode (p : Node → Bool) : Node → List Node
  | .text s => if p (.text s) then [.text s] else []
  | .elem t a cs =>
    (if p (.elem t a cs) then [Node.elem t a cs] else []) ++ findAllF p cs

/-- Model of `find_all(...)`: every matching node in document (preorder) order. -/
def findAllF (p : Node → Bool) : List Node → List Node
  | [] => []
  | n :: ns => findAllNode p n ++ findAllF p ns
end

mutual
/-- The string descendants of one subtree, in document order. -/
def textFragsNode : Node → List String
  | .text s => [s]
  | .elem _ _ cs => textFrags cs

/-- The string descendants of a forest, in document order (the iteration
underlying `get_text`). -/
def textFrags : List Node → List String
  | [] => []
  | n :: ns => textFragsNode n ++ textFrags ns
end

/-- Model of `get_text(strip=True)` over a forest: strip every string fragment,
skip the ones that become empty, and concatenate. -/
def joinStripped (frs : List String) : List Char :=
  match frs with
  | [] => []
  | s :: rest =>
    let t := stripChars s.data
    if t.isEmpty then joinStripped rest else t ++ joinStripped rest

def getTextStripF (f : List Node) : String := String.mk (joinStripped (textFrags f))

/-- Model of `tag.get_text(strip=True)`. -/
def elemTextStrip (n : Node) : String := getTextStripF n.children

mutual
/-- One subtree with its matching `span.prefix` descendants removed
(`[]` when the subtree root itself matches). -/
def stripSpansNode : Node → List Node
  | .text s => [Node.text s]
  | .elem t a cs =>
    if t == "span" && attrsHaveClass a "prefix" then []
    else [Node.elem t a (stripSpans cs)]

/-- Model of `for span in soup.select("span.prefix"): span.decompose()` — remove
every descendant `span` element carrying the `prefix` class. -/
def stripSpans : List Node → List Node
  | [] => []
  | n :: ns => stripSpansNode n ++ stripSpans ns
end

/-! ## The `html.parser` tokenizer

Model of the parsing behaviour relied on by `BeautifulSoup(...,
"html.parser")`: start/end tags with attributes, lower-cased tag and
attribute names, character-reference decoding of text data
(`convert_charrefs=True`), raw CDATA content for `script`/`style`
elements, a `<` that does not open a tag kept as literal text, and
comments/declarations skipped (they still split adjacent text runs). -/

inductive Tok where
  | topen (name : String) (attrs : List (String × String))
  | tclose (name : String)
  | ttext (s : String)
  | tcomment

/-- One fuelled step of character-reference decoding. -/
def decodeGo : Nat → List Char → List Char
  | 0, _ => []
  | _ + 1, [] => []
  | fuel + 1, c :: rest =>
    if c == '&' then
      if "amp;".data.isPrefixOf rest then '&' :: decodeGo fuel (rest.drop 4)
      else if "lt;".data.isPrefixOf rest then '<' :: decodeGo fuel (rest.drop 3)
      else if "gt;".data.isPrefixOf rest then '>' :: decodeGo fuel (rest.drop 3)
      else if "quot;".data.isPrefixOf rest then '"' :: decodeGo fuel (rest.drop 5)
      else if "#39;".data.isPrefixOf rest then '\'' :: decodeGo fuel (rest.drop 4)
      else '&' :: decodeGo fuel rest
    else c :: decodeGo fuel rest

/-- Decode character references in text data.  The named references used
by the pages (`&amp;` `&lt;` `&gt;` `&quot;` `&#39;`) are modelled; an
ampersand that opens no reference stays literal. -/
def decodeEnts (l : List Char) : List Char := decodeGo (l.length + 1) l

/-- Characters accepted in tag and attribute names. -/
def isNameChar (c : Char) : Bool :=
  c.isAlphanum || c == '-' || c == '_' || c == ':'

/-- Parse the attribute region of a start tag, up to the closing `>`.
Returns the attributes (names lower-cased, values reference-decoded), a
self-closing flag, and the remaining input; `none` when the input ends
inside the tag. -/
def parseAttrsGo : Nat → List Char → List (String × String) →
    Option (List (String × String) × Bool × List Char)
  | 0, _, _ => none
  | fuel + 1, cs, acc =>
    let cs := cs.dropWhile pySpace
    match cs with
    | [] => none
    | '>' :: rest => some (acc.reverse, false, rest)
    | '/' :: '>' :: rest => some (acc.reverse, true, rest)
    | '/' :: rest => parseAttrsGo fuel rest acc
    | '=' :: rest => parseAttrsGo fuel rest acc
    | _ =>
      let anm := cs.takeWhile fun c => !pySpace c && c != '=' && c != '>' && c != '/'
      let cs2 := (cs.dropWhile fun c => !pySpace c && c != '=' && c != '>' && c != '/').dropWhile pySpace
      match cs2 with
      | '=' :: cs3 =>
        let cs3 := cs3.dropWhile pySpace
        match cs3 with
        | '"' :: cs4 =>
          let v := cs4.takeWhile (· != '"')
          parseAttrsGo fuel ((cs4.dropWhile (· != '"')).drop 1)
            ((String.mk (lowerChars anm), String.mk (decodeEnts v)) :: acc)
        | '\'' :: cs4 =>
          let v := cs4.takeWhile (· != '\'')
          parseAttrsGo fuel ((cs4.dropWhile (· != '\'')).drop 1)
            ((String.mk (lowerChars anm), String.mk (decodeEnts v)) :: acc)
        | _ =>
          let v := cs3.takeWhile fun c => !pySpace c && c != '>'
          parseAttrsGo fuel (cs3.dropWhile fun c => !pySpace c && c != '>')
            ((String.mk (lowerChars anm), String.mk (decodeEnts v)) :: acc)
      | _ => parseAttrsGo fuel cs2 ((String.mk (lowerChars anm), "") :: acc)

/-- Split raw CDATA content: everything before the first occurrence of
the closing sequence (`</script`, case-insensitively), and the rest. -/
def cdataSplit (closer : List Char) : List Char → List Char × List Char
  | [] => ([], [])
  | c :: rest =>
    if closer.isPrefixOf (lowerChars (c :: rest)) then ([], c :: rest)
    else
      let (content, rem) := cdataSplit closer rest
      (c :: content, rem)

/-- One step of the tokenizer, with fuel (every step consumes at least
one character, so `length + 1` fuel suffices). -/
def tokGo : Nat → List Char → List Tok
  | 0, _ => []
  | _ + 1, [] => []
  | fuel + 1, c :: cs =>
    if c == '<' then
      match cs with
      | [] => [Tok.ttext "<"]
      | c2 :: cs2 =>
        if c2 == '/' then
          let nmChars := cs2.takeWhile isNameChar
          let afterNm := (cs2.dropWhile isNameChar).dropWhile pySpace
          if nmChars.isEmpty then Tok.ttext "<" :: tokGo fuel cs
          else
            match afterNm with
            | '>' :: rest2 => Tok.tclose (String.mk (lowerChars nmChars)) :: tokGo fuel rest2
            | _ => Tok.ttext "<" :: tokGo fuel cs
        else if c2 == '!' || c2 == '?' then
          match (c2 :: cs2).dropWhile (· != '>') with
          | '>' :: rest2 => Tok.tcomment :: tokGo fuel rest2
          | _ => Tok.ttext "<" :: tokGo fuel cs
        else if c2.isAlpha then
          let nmChars := c2 :: cs2.takeWhile isNameChar
          let afterNm := cs2.dropWhile isNameChar
          match parseAttrsGo (afterNm.length + 1) afterNm [] with
          | none => Tok.ttext "<" :: tokGo fuel cs
          | some (attrs, selfClosing, rem) =>
            let nm := String.mk (lowerChars nmChars)
            if selfClosing then
              Tok.topen nm attrs :: Tok.tclose nm :: tokGo fuel rem
            else if nm == "script" || nm == "style" then
              let (content, rem2) := cdataSplit ('<' :: '/' :: nm.data) rem
              match rem2 with
              | [] => [Tok.topen nm attrs, Tok.ttext (String.mk content)]
              | _ =>
                let rem3 :=
                  match rem2.dropWhile (· != '>') with
                  | '>' :: r => r
                  | _ => []
                Tok.topen nm attrs :: Tok.ttext (String.mk content) ::
                  Tok.tclose nm :: tokGo fuel rem3
            else Tok.topen nm attrs :: tokGo fuel rem
        else Tok.ttext "<" :: tokGo fuel cs
    else
      let run := (c :: cs).takeWhile (· != '<')
      Tok.ttext (String.mk (decodeEnts run)) :: tokGo fuel ((c :: cs).dropWhile (· != '<'))

def tokenize (cs : List Char) : List Tok := tokGo (cs.length + 1) cs

/-- Adjacent data chunks are buffered into a single string by
BeautifulSoup; any tag event (even an ignored end tag), comment or
declaration flushes the buffer. -/
def mergeTexts : List Tok → List Tok
  | [] => []
  | Tok.ttext a :: rest =>
    match mergeTexts rest with
    | Tok.ttext b :: rest2 => Tok.ttext (a ++ b) :: rest2
    | r => Tok.ttext a :: r
  | t :: rest => t :: mergeTexts rest

/-- HTML void elements: the `html.parser` tree builder closes them
immediately (`can_be_empty_element`). -/
def voidTags : List String :=
  ["area", "base", "br", "col", "embed", "hr", "img", "input", "link",
   "meta", "param", "source", "track", "wbr"]

/-- An open element on the tree-builder stack: its tag, attributes, and
the already-built children of its parent (reversed). -/
structure Frame where
  tag : String
  attrs : List (String × String)
  parentAcc : List Node

def stackHasTag (nm : String) : List Frame → Bool
  | [] => false
  | f :: st => f.tag == nm || stackHasTag nm st

/-- Close elements down to and including the one named `nm` (used for an
end tag whose name is somewhere on the stack). -/
def popTo (nm : String) : List Frame → List Node → List Frame × List Node
  | [], acc => ([], acc)
  | f :: st, acc =>
    let node := Node.elem f.tag f.attrs acc.reverse
    if f.tag == nm then (st, node :: f.parentAcc)
    else popTo nm st (node :: f.parentAcc)

/-- At end of input, close every element still open. -/
def closeAllFrames : List Frame → List Node → List Node
  | [], acc => acc.reverse
  | f :: st, acc => closeAllFrames st (Node.elem f.tag f.attrs acc.reverse :: f.parentAcc)

/-- The tree builder: ignores an end tag whose name is not open
(BeautifulSoup's `_popToTag` recovery), closes void elements
immediately, and drops empty data strings. -/
def buildGo : List Tok → List Frame → List Node → List Node
  | [], stack, acc => closeAllFrames stack acc
  | Tok.ttext s :: rest, stack, acc =>
    if s.data.isEmpty then buildGo rest stack acc
    else buildGo rest stack (Node.text s :: acc)
  | Tok.tcomment :: rest, stack, acc => buildGo rest stack acc
  | Tok.topen nm attrs :: rest, stack, acc =>
    if voidTags.contains nm then buildGo rest stack (Node.elem nm attrs [] :: acc)
    else buildGo rest (⟨nm, attrs, acc⟩ :: stack) []
  | Tok.tclose nm :: rest, stack, acc =>
    if stackHasTag nm stack then
      let (stack2, acc2) := popTo nm stack acc
      buildGo rest stack2 acc2
    else buildGo rest stack acc

/-- Model of `BeautifulSoup(s, "html.parser")`: the parsed document forest. -/
def parseHtmlDoc (s : String) : List Node :=
  buildGo (mergeTexts (tokenize s.data)) [] []

/-! ## The step-3 regular expressions

`re.search` with the two concrete patterns used by the script:
`var\s+findagrave\s*=` (the `string=` matcher of `soup.find`) and
`var\s+findagrave\s*=\s*({.*?});\s*var\s+htmlSnippets` (the object
isolation, DOTALL, non-greedy). -/

/-- Match a literal. -/
def matchLit (lit cs : List Char) : Option (List Char) :=
  if lit.isPrefixOf cs then some (cs.drop lit.length) else none

/-- Match `\s+`. -/
def matchWs1 (cs : List Char) : Option (List Char) :=
  match cs with
  | c :: rest => if pySpace c then some (rest.dropWhile pySpace) else none
  | [] => none

/-- Does `var\s+findagrave\s*=` match starting here? -/
def declHere (cs : List Char) : Bool :=
  (Option.bind (matchLit "var".data cs) fun r1 =>
   Option.bind (matchWs1 r1) fun r2 =>
   Option.bind (matchLit "findagrave".data r2) fun r3 =>
   matchLit "=".data (r3.dropWhile pySpace)).isSome

/-- Model of `re.search(r"var\s+findagrave\s*=", s)` viewed as a Boolean. -/
def declSearch : List Char → Bool
  | [] => false
  | c :: rest => declHere (c :: rest) || declSearch rest

/-- The non-greedy body: scan for the first `}` that is followed by
`;\s*var\s+htmlSnippets`; return the object literal including both
braces.  `acc` holds the scanned body characters in reverse. -/
def lazyBody (acc : List Char) : List Char → Option (List Char)
  | [] => none
  | c :: rest =>
    if c == rbrace &&
        (Option.bind (matchLit ";".data rest) fun r1 =>
         Option.bind (matchLit "var".data (r1.dropWhile pySpace)) fun r2 =>
         Option.bind (matchWs1 r2) fun r3 =>
         matchLit "htmlSnippets".data r3).isSome then
      some (lbrace :: acc.reverse ++ [rbrace])
    else lazyBody (c :: acc) rest

/-- Does the full extraction pattern match starting here?  Returns the
text of capture group 1 (`{...}`). -/
def extractHere (cs : List Char) : Option (List Char) :=
  Option.bind (matchLit "var".data cs) fun r1 =>
  Option.bind (matchWs1 r1) fun r2 =>
  Option.bind (matchLit "findagrave".data r2) fun r3 =>
  Option.bind (matchLit "=".data (r3.dropWhile pySpace)) fun r4 =>
  match r4.dropWhile pySpace with
  | c :: r5 => if c == lbrace then lazyBody [] r5 else none
  | [] => none

/-- Model of `re.search` for the extraction pattern: leftmost start position that
matches, shortest (lazy) body at that position. -/
def extractFindagrave : List Char → Option (List Char)
  | [] => none
  | c :: rest =>
    match extractHere (c :: rest) with
    | some g => some g
    | none => extractFindagrave rest

/-! ## The `js2py` object-literal evaluation

`js2py.eval_js("var findagrave = " + group + "; findagrave;")`
evaluates the captured object literal.  The literal grammar used by the
pages: double- or single-quoted strings with backslash escapes, decimal
numbers, `true`/`false`/`null`, nested objects and arrays, identifier or
quoted keys.  Later duplicate keys overwrite earlier ones.  Any
deviation raises, which the script reports as a CRITICAL failure. -/

/-- A backslash escape inside a string literal (unknown escapes yield
the character itself, as in JavaScript). -/
def escChar (c : Char) : Char :=
  if c == 'n' then '\n' else if c == 't' then '\t' else if c == 'r' then '\r' else c

/-- Parse a string literal body up to the closing quote `q`. -/
def parseStringLit (q : Char) : List Char → Option (List Char × List Char)
  | [] => none
  | c :: rest =>
    if c == q then some ([], rest)
    else if c == '\\' then
      match rest with
      | [] => none
      | e :: rest2 =>
        (parseStringLit q rest2).map fun p => (escChar e :: p.1, p.2)
    else (parseStringLit q rest).map fun p => (c :: p.1, p.2)

def digitsToNat (ds : List Char) : Nat :=
  ds.foldl (fun a c => a * 10 + (c.toNat - 48)) 0

/-- Parse an unsigned decimal number; non-integral numbers keep their
literal text (the script never computes with them). -/
def parseNumCore (cs : List Char) : Option (Val × List Char) :=
  let ds := cs.takeWhile Char.isDigit
  if ds.isEmpty then none
  else
    let rest := cs.dropWhile Char.isDigit
    match rest with
    | '.' :: rest2 =>
      let fs := rest2.takeWhile Char.isDigit
      some (Val.vdec (String.mk (ds ++ '.' :: fs)), rest2.dropWhile Char.isDigit)
    | _ => some (Val.vint (Int.ofNat (digitsToNat ds)), rest)

def negVal : Val → Val
  | .vint n => .vint (-n)
  | .vdec s => .vdec ("-" ++ s)
  | v => v

def parseNum (cs : List Char) : Option (Val × List Char) :=
  match cs with
  | '-' :: rest => (parseNumCore rest).map fun p => (negVal p.1, p.2)
  | _ => parseNumCore cs

/-- An object key: quoted string or bare identifier. -/
def parseKey (cs : List Char) : Option (List Char × List Char) :=
  match cs with
  | [] => none
  | c :: rest =>
    if c == '"' || c == '\'' then parseStringLit c rest
    else
      let idc := (c :: rest).takeWhile fun x => x.isAlphanum || x == '_' || x == '$'
      if idc.isEmpty then none
      else some (idc, (c :: rest).dropWhile fun x => x.isAlphanum || x == '_' || x == '$')

mutual
/-- Parse one JavaScript literal value (fuelled). -/
def parseJsVal : Nat → List Char → Option (Val × List Char)
  | 0, _ => none
  | fuel + 1, cs =>
    match cs.dropWhile pySpace with
    | [] => none
    | c :: rest =>
      if c == '"' || c == '\'' then
        (parseStringLit c rest).map fun p => (Val.vstr (String.mk p.1), p.2)
      else if c == lbrace then parseObjBody fuel rest []
      else if c == '[' then parseArrBody fuel rest []
      else if c.isDigit || c == '-' then parseNum (c :: rest)
      else if "true".data.isPrefixOf (c :: rest) then
        some (Val.vbool true, (c :: rest).drop 4)
      else if "false".data.isPrefixOf (c :: rest) then
        some (Val.vbool false, (c :: rest).drop 5)
      else if "null".data.isPrefixOf (c :: rest) then
        some (Val.vnone, (c :: rest).drop 4)
      else none

/-- Parse the members of an object literal after `{`. -/
def parseObjBody : Nat → List Char → List (String × Val) →
    Option (Val × List Char)
  | 0, _, _ => none
  | fuel + 1, cs, acc =>
    match cs.dropWhile pySpace with
    | [] => none
    | c :: rest =>
      if c == rbrace then some (Val.vobj acc, rest)
      else
        Option.bind (parseKey (c :: rest)) fun kp =>
        match kp.2.dropWhile pySpace with
        | ':' :: rest2 =>
          Option.bind (parseJsVal fuel rest2) fun vp =>
          let acc2 := Rec.set acc (String.mk kp.1) vp.1
          match vp.2.dropWhile pySpace with
          | ',' :: rest3 => parseObjBody fuel rest3 acc2
          | c2 :: rest3 =>
            if c2 == rbrace then some (Val.vobj acc2, rest3) else none
          | [] => none
        | _ => none

/-- Parse the members of an array literal after `[`. -/
def parseArrBody : Nat → List Char → List Val → Option (Val × List Char)
  | 0, _, _ => none
  | fuel + 1, cs, acc =>
    match cs.dropWhile pySpace with
    | [] => none
    | c :: rest =>
      if c == ']' then some (Val.varr acc.reverse, rest)
      else
        Option.bind (parseJsVal fuel (c :: rest)) fun vp =>
        match vp.2.dropWhile pySpace with
        | ',' :: rest2 => parseArrBody fuel rest2 (vp.1 :: acc)
        | c2 :: rest2 =>
          if c2 == ']' then some (Val.varr (vp.1 :: acc).reverse, rest2) else none
        | [] => none
end

/-- Evaluate the captured group as a JavaScript object literal: the
deserialized `findagrave` payload, or `none` when `js2py` would raise. -/
def evalObjLiteral (g : List Char) : Option Rec :=
  match parseJsVal (g.length + 2) g with
  | some (Val.vobj kvs, rest) =>
    if (rest.dropWhile pySpace).isEmpty then some kvs else none
  | _ => none

/-! ## Step 3: extract the JS object -/

/-- The three distinct exceptions of the step-3 `try` block: the two
`ValueError`s raised explicitly by the script and the error raised by
`js2py` on a literal it cannot evaluate. -/
inductive JsErr where
  | missingScript
  | noMatch
  | evalFailed
deriving DecidableEq

/-- Message of `str(e)` for the step-3 exceptions.  The first two messages are the
literal strings raised in the source; the third stands for the `js2py`
error text. -/
def JsErr.msg : JsErr → String
  | .missingScript => "Missing \x27findagrave\x27 JS object"
  | .noMatch => "Failed to extract \x27findagrave\x27 object"
  | .evalFailed => "SyntaxError: invalid object literal"

/-- The matcher of `soup.find("script", string=re.compile(r"var\s+findagrave\s*="))`:
a `script` tag whose `.string` exists and matches the pattern. -/
def isFgScript (n : Node) : Bool :=
  isElemNamed n "script" &&
    (match nodeString n with
     | some s => declSearch s.data
     | none => false)

/-- Step 3 of the script: find the script element, isolate the object
literal with the regular expression, evaluate it. -/
def step3 (soup : List Node) : Except JsErr Rec :=
  match findF isFgScript soup with
  | none => .error .missingScript
  | some tag =>
    let raw := (nodeString tag).getD ""
    match extractFindagrave raw.data with
    | none => .error .noMatch
    | some g =>
      match evalObjLiteral g with
      | none => .error .evalFailed
      | some data => .ok data

/-! ## Step 4: main fields -/

/-- JavaScript member access through `js2py`: a missing property is
`undefined`, which converts to Python `None`. -/
def pget (data : Rec) (k : String) : Val := (Rec.get data k).getD Val.vnone

/-- The Python type name of a non-string payload value, as it appears in
the `TypeError` raised by `BeautifulSoup(raw_full_name, "html.parser")`
(`len()` of a non-sized object). -/
def pyTypeName : Val → String
  | .vstr _ => "str"
  | .vint _ => "float"
  | .vdec _ => "float"
  | .vbool _ => "bool"
  | .vnone => "NoneType"
  | .varr _ => "JsObjectWrapper"
  | .vobj _ => "JsObjectWrapper"

/-- Clean the raw full name: parse it as markup, decompose every
`span.prefix` element, and take the remaining visible text stripped. -/
def cleanFullName (s : String) : String :=
  getTextStripF (stripSpans (parseHtmlDoc s))

/-- The `main_fields` dictionary literal of step 4 (a fixed renaming of
payload keys, with the cleaned full name). -/
def mainFieldsOf (data : Rec) (cleaned : String) : Rec :=
  [("full_name", Val.vstr cleaned),
   ("first_name", pget data "firstName"),
   ("last_name", pget data "lastName"),
   ("birth_year", pget data "birthYear"),
   ("death_year", pget data "deathYear"),
   ("death_date", pget data "deathDate"),
   ("death_month", pget data "deathMonth"),
   ("death_day", pget data "deathDay"),
   ("cemetery_name", pget data "cemeteryName"),
   ("cemetery_city", pget data "cemeteryCityName"),
   ("cemetery_county", pget data "cemeteryCountyName"),
   ("cemetery_state", pget data "cemeteryStateName"),
   ("cemetery_country", pget data "cemeteryCountryName"),
   ("cemetery_latitude", pget data "cemeteryLatitude"),
   ("cemetery_longitude", pget data "cemeteryLongitude"),
   ("memorial_id", pget data "memorialId"),
   ("person_id", pget data "personId"),
   ("memorial_contributor_id", pget data "memorialContributorId"),
   ("sponsor_contributor_id", pget data "sponsorContributorId"),
   ("memorial_url", pget data "linkToShare"),
   ("is_famous", pget data "isFamous"),
   ("is_cenotaph", pget data "isCenotaph"),
   ("has_grave_photo", pget data "intermentHasPhoto"),
   ("cover_photo_id", pget data "coverPhotoId"),
   ("cover_photo_url", pget data "photoToShare"),
   ("default_photo_url", pget data "defaultPhotoToShare"),
   ("cemetery_id", pget data "memorialCemeteryId")]

/-- Step 4 of the script.  `BeautifulSoup(raw_full_name, "html.parser")`
raises a `TypeError` whenever `data.fullName` is not a string (in
particular when the key is absent and `js2py` returned `None`); the
whole dictionary literal is one expression, so on failure `main_fields`
is never assigned at all. -/
def step4 (data : Rec) : Except String Rec :=
  match Rec.get data "fullName" with
  | some (Val.vstr raw) => .ok (mainFieldsOf data (cleanFullName raw))
  | some v => .error ("object of type \x27" ++ pyTypeName v ++ "\x27 has no len()")
  | none => .error "object of type \x27NoneType\x27 has no len()"

/-! ## Steps 5–7: markup sections -/

/-- Step 5: biography (`div#partBio`) and attribution (first link inside
the first `p.text-muted`). -/
def step5 (soup : List Node) (m : Rec) : Rec :=
  let bioDiv := findF (fun n => isElemNamed n "div" && hasIdAttr n "partBio") soup
  let m1 := Rec.set m "biography"
    (Val.vstr (match bioDiv with | some d => elemTextStrip d | none => ""))
  let contributor := findF (fun n => isElemNamed n "p" && hasClassAttr n "text-muted") soup
  let bioBy : String :=
    match contributor with
    | some ctag =>
      match findF (fun n => isElemNamed n "a") ctag.children with
      | some link => elemTextStrip link
      | none => ""
    | none => ""
  Rec.set m1 "bio_by" (Val.vstr bioBy)

/-- Step 5.1: plot label (`span#plotValueLabel`). -/
def step5x (soup : List Node) (m : Rec) : Rec :=
  let plotSpan := findF (fun n => isElemNamed n "span" && hasIdAttr n "plotValueLabel") soup
  Rec.set m "Plot"
    (Val.vstr (match plotSpan with | some sp => elemTextStrip sp | none => ""))

/-- Step 6: inscription (first `div.inscription`). -/
def step6 (soup : List Node) (m : Rec) : Rec :=
  let insc := findF (fun n => isElemNamed n "div" && hasClassAttr n "inscription") soup
  Rec.set m "inscription"
    (Val.vstr (match insc with | some d => elemTextStrip d | none => ""))

def isFamilySection (n : Node) : Bool :=
  isElemNamed n "section" && hasIdAttr n "family-members"

def isRelDiv (relation : String) (n : Node) : Bool :=
  isElemNamed n "div" && attrEqualsV n "data-relationship" relation

def isHrefLink (n : Node) : Bool :=
  isElemNamed n "a" && hasAttrKey n "href"

/-- The per-relation link texts of step 7: inside the family section,
the first `div[data-relationship=relation]`, and within it the text of
every `a` with an `href`, in document order. -/
def relLinkTexts (familySection : Option Node) (relation : String) : List String :=
  match familySection with
  | none => []
  | some sec =>
    match findF (isRelDiv relation) sec.children with
    | none => []
    | some blk => (findAllF isHrefLink blk.children).map elemTextStrip

/-- Step 7: the three family strings, each the `", ".join` of its link
texts. -/
def step7 (soup : List Node) (m : Rec) : Rec :=
  let familySection := findF isFamilySection soup
  Rec.set
    (Rec.set
      (Rec.set m "family_parents"
        (Val.vstr (String.intercalate ", " (relLinkTexts familySection "parents"))))
      "family_spouses"
      (Val.vstr (String.intercalate ", " (relLinkTexts familySection "spouses"))))
    "family_children"
    (Val.vstr (String.intercalate ", " (relLinkTexts familySection "children")))

/-! ## Step 10: projection and sink write -/

/-- The columns removed before the sink write. -/
def columnsToDrop : List String :=
  ["inscription", "family_parents", "family_spouses", "family_children"]

inductive DropMode where
  | raiseErr
  | ignore
deriving DecidableEq

/-- Model of `DataFrame.drop(columns=cols, errors=mode)`: with `errors="ignore"`
missing labels are silently skipped; otherwise they raise a `KeyError`. -/
def pdDropColumns (cols : List String) (mode : DropMode) (m : Rec) : Except String Rec :=
  if mode == DropMode.raiseErr && cols.any (fun c => (Rec.get m c).isNone) then
    .error "KeyError: labels not found in axis"
  else .ok (m.filter fun kv => !(cols.contains kv.1))

/-! ## The whole pipeline -/

/-- How a run ends: the spreadsheet is written with the given record; or
`SystemExit` is raised with a message (exit code 1, no output file); or
an exception escapes uncaught (exit code 1, no output file). -/
inductive Outcome where
  | saved (r : Rec)
  | exited (msg : String)
  | crashed (msg : String)

/-- Message of `str(NameError)` produced in steps 5–5.1 when step 4 failed and the
module-level name `main_fields` was never bound. -/
def nameErrorMsg : String := "name \x27main_fields\x27 is not defined"

/-- Did the run write the output workbook? -/
def Outcome.isSaved : Outcome → Bool
  | .saved _ => true
  | _ => false

/-- Step 10 of the script: project away the excluded columns (with
`errors="ignore"`) and write the single-row sheet. -/
def step10 (m : Rec) : List String × Outcome :=
  match pdDropColumns columnsToDrop DropMode.ignore m with
  | .error msg =>
    (["[SAVE] Failed to save Excel: " ++ msg],
     Outcome.exited "Excel save failed. Check errors.txt.")
  | .ok finalRec => ([], Outcome.saved finalRec)

/-- The run of the script on a fetched document, returning the error-log
lines appended (in order) and the outcome.  When step 3 fails the run
exits via `SystemExit` after one CRITICAL line.  When step 4 fails,
steps 5 and 5.1 hit `NameError`; step 5's handler only logs, but step
5.1's handler itself assigns `main_fields["Plot"]`, so the `NameError`
it raises escapes uncaught and the run crashes before reaching the sink
write. -/
def runPipeline (docText : String) : List String × Outcome :=
  let soup := parseHtmlDoc docText
  match step3 soup with
  | .error e =>
    (["[CRITICAL] JS parsing failed: " ++ e.msg],
     Outcome.exited "JS parsing failed. Check errors.txt.")
  | .ok data =>
    match step4 data with
    | .error msg =>
      (["[DATA] Failed to extract main_fields: " ++ msg,
        "[DATA] Failed to extract biography info: " ++ nameErrorMsg,
        "[DATA] Failed to extract Plot: " ++ nameErrorMsg],
       Outcome.crashed nameErrorMsg)
    | .ok m0 =>
      let m1 := step5 soup m0
      let m2 := step5x soup m1
      let m3 := step6 soup m2
      let m4 := step7 soup m3
      step10 m4

/-! ## Concrete documents used by the scenario theorems -/

/-- The end-to-end scenario document of the specification: a page whose
script declares `var findagrave = {"fullName":"<span class=\"prefix\">Pvt</span>
John Doe","firstName":"John","lastName":"Doe","birthYear":1900,
"deathYear":1944}; var htmlSnippets = {};` and which has no
biography/plot/inscription/family markup. -/
def sampleDoc : String :=
  "<html><body><script>var findagrave = \x7b\"fullName\":\"<span class=\\\"prefix\\\">Pvt</span> John Doe\",\"firstName\":\"John\",\"lastName\":\"Doe\",\"birthYear\":1900,\"deathYear\":1944\x7d; var htmlSnippets = \x7b\x7d;</script></body></html>"

/-- A page with no script element at all. -/
def docNoScript : String := "<html><body><p>hello</p></body></html>"

/-- A page whose `findagrave` object has a numeric `fullName`: step 4's
`BeautifulSoup(raw_full_name)` raises a `TypeError`. -/
def docNumFullName : String :=
  "<html><script>var findagrave = \x7b\"fullName\":123,\"firstName\":\"John\"\x7d; var htmlSnippets = \x7b\x7d;</script></html>"

/-- A page whose `findagrave` object has a boolean `fullName`. -/
def docBoolFullName : String :=
  "<html><script>var findagrave = \x7b\"fullName\":true\x7d; var htmlSnippets = \x7b\x7d;</script></html>"

/-- A payload with no `fullName` key at all. -/
def payloadNoFullName : Rec := [("firstName", Val.vstr "John")]

/-- The final record the pipeline writes for `sampleDoc`. -/
def sampleFinalRec : Rec :=
  [("full_name", Val.vstr "John Doe"),
   ("first_name", Val.vstr "John"),
   ("last_name", Val.vstr "Doe"),
   ("birth_year", Val.vint 1900),
   ("death_year", Val.vint 1944),
   ("death_date", Val.vnone),
   ("death_month", Val.vnone),
   ("death_day", Val.vnone),
   ("cemetery_name", Val.vnone),
   ("cemetery_city", Val.vnone),
   ("cemetery_county", Val.vnone),
   ("cemetery_state", Val.vnone),
   ("cemetery_country", Val.vnone),
   ("cemetery_latitude", Val.vnone),
   ("cemetery_longitude", Val.vnone),
   ("memorial_id", Val.vnone),
   ("person_id", Val.vnone),
   ("memorial_contributor_id", Val.vnone),
   ("sponsor_contributor_id", Val.vnone),
   ("memorial_url", Val.vnone),
   ("is_famous", Val.vnone),
   ("is_cenotaph", Val.vnone),
   ("has_grave_photo", Val.vnone),
   ("cover_photo_id", Val.vnone),
   ("cover_photo_url", Val.vnone),
   ("default_photo_url", Val.vnone),
   ("cemetery_id", Val.vnone),
   ("biography", Val.vstr "")
   , ("bio_by", Val.vstr "")
   , ("Plot", Val.vstr "")]

/-- The payload deserialized from `sampleDoc`'s script. -/
def samplePayload : Rec :=
  [("fullName", Val.vstr "<span class=\"prefix\">Pvt</span> John Doe"),
   ("firstName", Val.vstr "John"),
   ("lastName", Val.vstr "Doe"),
   ("birthYear", Val.vint 1900),
   ("deathYear", Val.vint 1944)]

/-- The static renaming table of step 4, read off the `main_fields`
dictionary literal: payload key to output column. -/
def fieldMap : List (String × String) :=
  [("fullName", "full_name"),
   ("firstName", "first_name"),
   ("lastName", "last_name"),
   ("birthYear", "birth_year"),
   ("deathYear", "death_year"),
   ("deathDate", "death_date"),
   ("deathMonth", "death_month"),
   ("deathDay", "death_day"),
   ("cemeteryName", "cemetery_name"),
   ("cemeteryCityName", "cemetery_city"),
   ("cemeteryCountyName", "cemetery_county"),
   ("cemeteryStateName", "cemetery_state"),
   ("cemeteryCountryName", "cemetery_country"),
   ("cemeteryLatitude", "cemetery_latitude"),
   ("cemeteryLongitude", "cemetery_longitude"),
   ("memorialId", "memorial_id"),
   ("personId", "person_id"),
   ("memorialContributorId", "memorial_contributor_id"),
   ("sponsorContributorId", "sponsor_contributor_id"),
   ("linkToShare", "memorial_url"),
   ("isFamous", "is_famous"),
   ("isCenotaph", "is_cenotaph"),
   ("intermentHasPhoto", "has_grave_photo"),
   ("coverPhotoId", "cover_photo_id"),
   ("photoToShare", "cover_photo_url"),
   ("defaultPhotoToShare", "default_photo_url"),
   ("memorialCemeteryId", "cemetery_id")]

mutual
/-- Modelled from the spec: the visible texts of every hyperlink in one
subtree, in document order ("collect the visible text of every
hyperlink within it, in document order").  This is the spec-side
definition compared against the step-7 extraction. -/
def specLinkTextsNode : Node → List String
  | .text _ => []
  | .elem t a cs =>
    (if isHrefLink (.elem t a cs) then [elemTextStrip (.elem t a cs)] else []) ++
      specLinkTextsF cs

/-- Modelled from the spec: hyperlink texts of a forest, in document order. -/
def specLinkTextsF : List Node → List String
  | [] => []
  | n :: ns => specLinkTextsNode n ++ specLinkTextsF ns
end

/-- A concrete family-members section used to witness the family-string
theorem. -/
def famForest : List Node :=
  [Node.elem "section" [("id", "family-members")]
    [Node.elem "div" [("data-relationship", "parents")]
      [Node.elem "a" [("href", "m1")] [Node.text "Jane Doe"],
       Node.elem "a" [("href", "m2")] [Node.text "Jim Doe"]]]]

/-! ## Dictionary lemmas -/

theorem Rec.get_set_self (m : Rec) (k : String) (v : Val) :
    Rec.get (Rec.set m k v) k = some v := by
  induction m with
  | nil => simp [Rec.set, Rec.get]
  | cons kv rest ih =>
    obtain ⟨k0, v0⟩ := kv
    by_cases h : k0 = k
    · simp [Rec.set, Rec.get, h]
    · simp [Rec.set, Rec.get, h, ih]

theorem Rec.get_set_ne (m : Rec) (k k' : String) (v : Val) (h : k' ≠ k) :
    Rec.get (Rec.set m k' v) k = Rec.get m k := by
  induction m with
  | nil => simp [Rec.set, Rec.get, h]
  | cons kv rest ih =>
    obtain ⟨k0, v0⟩ := kv
    by_cases h0 : k0 = k'
    · subst h0
      simp [Rec.set, Rec.get, h]
    · simp [Rec.set, Rec.get, h0, ih]

theorem Rec.get_filter_dropped (m : Rec) (cols : List String) (k : String)
    (h : k ∈ cols) :
    Rec.get (m.filter fun kv => !(cols.contains kv.1)) k = none := by
  induction m with
  | nil => rfl
  | cons kv rest ih =>
    obtain ⟨k0, v0⟩ := kv
    by_cases h0 : k0 ∈ cols
    · simpa [List.filter_cons, h0] using ih
    · have hne : k0 ≠ k := by
        intro e
        exact h0 (e ▸ h)
      simpa [List.filter_cons, h0, Rec.get, hne] using ih

theorem Rec.get_filter_kept (m : Rec) (cols : List String) (k : String)
    (h : k ∉ cols) :
    Rec.get (m.filter fun kv => !(cols.contains kv.1)) k = Rec.get m k := by
  induction m with
  | nil => rfl
  | cons kv rest ih =>
    obtain ⟨k0, v0⟩ := kv
    by_cases h0 : k0 = k
    · subst h0
      simp [List.filter_cons, h, Rec.get]
    · by_cases h1 : k0 ∈ cols <;>
        simpa [List.filter_cons, h1, Rec.get, h0] using ih

/-! ## Forest induction -/

/-- Induction principle for document forests (derived from the size
measure, since `Node` nests `List Node`). -/
theorem forestInd (Q : List Node → Prop)
    (hnil : Q [])
    (htext : ∀ s ns, Q ns → Q (Node.text s :: ns))
    (helem : ∀ t a cs ns, Q cs → Q ns → Q (Node.elem t a cs :: ns)) :
    ∀ f, Q f := by
  have key : ∀ k f, sizeOf f ≤ k → Q f := by
    intro k
    induction k with
    | zero =>
      intro f hf
      match f with
      | [] => exact hnil
      | n :: ns =>
        exfalso
        have : 0 < sizeOf (n :: ns) := by cases n <;> simp
        omega
    | succ k ih =>
      intro f hf
      match f with
      | [] => exact hnil
      | Node.text s :: ns =>
        refine htext s ns (ih ns ?_)
        have hsz : sizeOf (Node.text s :: ns) = 1 + sizeOf (Node.text s) + sizeOf ns := by simp
        have h2 : 0 < sizeOf (Node.text s) := by simp
        omega
      | Node.elem t a cs :: ns =>
        have hsz : sizeOf (Node.elem t a cs :: ns)
            = 1 + sizeOf (Node.elem t a cs) + sizeOf ns := by simp
        have hsz2 : sizeOf (Node.elem t a cs) = 1 + sizeOf t + sizeOf a + sizeOf cs := by
          simp
        refine helem t a cs ns (ih cs ?_) (ih ns ?_) <;> omega
  exact fun f => key (sizeOf f) f le_rfl

/-! ## Find lemmas -/

theorem findF_none_mono (p q : Node → Bool) (h : ∀ n, q n = true → p n = true) :
    ∀ f, findF p f = none → findF q f = none := by
  refine forestInd (fun f => findF p f = none → findF q f = none) ?_ ?_ ?_
  · intro _
    rfl
  · intro s ns ih hp
    have hpn : p (Node.text s) = false := by
      cases hp2 : p (Node.text s)
      · rfl
      · simp [findF, findNode, hp2] at hp
    have hqn : q (Node.text s) = false := by
      cases hq : q (Node.text s)
      · rfl
      · rw [h _ hq] at hpn
        exact absurd hpn (by simp)
    simp [findF, findNode, hpn] at hp
    simp [findF, findNode, hqn]
    exact ih hp
  · intro t a cs ns ihcs ihns hp
    have hpn : p (Node.elem t a cs) = false := by
      cases hp2 : p (Node.elem t a cs)
      · rfl
      · simp [findF, findNode, hp2] at hp
    have hqn : q (Node.elem t a cs) = false := by
      cases hq : q (Node.elem t a cs)
      · rfl
      · rw [h _ hq] at hpn
        exact absurd hpn (by simp)
    rw [show findF p (Node.elem t a cs :: ns) =
          (match findF p cs with
           | some r => some r
           | none => findF p ns) from by simp [findF, findNode, hpn]] at hp
    cases hfc : findF p cs with
    | some r =>
      rw [hfc] at hp
      exact absurd hp (by simp)
    | none =>
      rw [hfc] at hp
      simp [findF, findNode, hqn, ihcs hfc, ihns hp]

/-- The step-7 extraction pipeline (`find_all` then `get_text`) collects
exactly the spec's "visible text of every hyperlink, in document order". -/
theorem findAll_map_eq_spec :
    ∀ f, (findAllF isHrefLink f).map elemTextStrip = specLinkTextsF f := by
  refine forestInd
    (fun f => (findAllF isHrefLink f).map elemTextStrip = specLinkTextsF f) ?_ ?_ ?_
  · rfl
  · intro s ns ih
    simp [findAllF, findAllNode, specLinkTextsF, specLinkTextsNode,
      isHrefLink, isElemNamed, ih]
  · intro t a cs ns ihcs ihns
    by_cases hl : isHrefLink (Node.elem t a cs) <;>
      simp [findAllF, findAllNode, specLinkTextsF, specLinkTextsNode, hl, ihcs, ihns]

/-! ## Stripping lemmas (for the full-name cleaning claim) -/

theorem dropWhile_pySpace_idem (l : List Char) :
    (l.dropWhile pySpace).dropWhile pySpace = l.dropWhile pySpace := by
  induction l with
  | nil => rfl
  | cons c cs ih =>
    cases h : pySpace c
    · rw [List.dropWhile_cons, h]
      simp [List.dropWhile_cons, h]
    · rw [List.dropWhile_cons, h]
      simpa using ih

/-- A nonempty list that survives `dropWhile` keeps surviving after an
append on the right. -/
theorem dropWhile_append_self (a b : List Char) (ha : a.dropWhile pySpace = a)
    (hne : a ≠ []) : (a ++ b).dropWhile pySpace = a ++ b := by
  match a with
  | [] => exact absurd rfl hne
  | c :: cs =>
    have hc : pySpace c = false := by
      cases hpc : pySpace c
      · rfl
      · exfalso
        rw [List.dropWhile_cons, hpc] at ha
        simp at ha
        have h1 := List.IsSuffix.length_le (List.dropWhile_suffix (l := cs) pySpace)
        have h2 := congrArg List.length ha
        simp at h2
        omega
    rw [List.cons_append, List.dropWhile_cons, hc]
    simp

/-- A prefix of a list that survives `dropWhile` also survives it. -/
theorem dropWhile_eq_self_of_prefix (a y : List Char) (hpre : a <+: y)
    (hy : y.dropWhile pySpace = y) : a.dropWhile pySpace = a := by
  match a with
  | [] => rfl
  | c :: cs =>
    obtain ⟨b, hb⟩ := hpre
    have hc : pySpace c = false := by
      cases hpc : pySpace c
      · rfl
      · exfalso
        rw [← hb, List.cons_append, List.dropWhile_cons, hpc] at hy
        simp at hy
        have h1 := List.IsSuffix.length_le (List.dropWhile_suffix (l := cs ++ b) pySpace)
        have h2 := congrArg List.length hy
        rw [List.length_cons] at h2
        omega
    rw [List.dropWhile_cons, hc]
    simp

/-- The output of `stripChars` has no leading whitespace. -/
theorem stripChars_leftClean (l : List Char) :
    (stripChars l).dropWhile pySpace = stripChars l := by
  refine dropWhile_eq_self_of_prefix _ (l.dropWhile pySpace) ?_ (dropWhile_pySpace_idem l)
  have hsuf : (l.dropWhile pySpace).reverse.dropWhile pySpace <:+
      (l.dropWhile pySpace).reverse := List.dropWhile_suffix pySpace
  have := List.reverse_prefix.mpr hsuf
  simpa [stripChars] using this

/-- The output of `stripChars` has no trailing whitespace. -/
theorem stripChars_rightClean (l : List Char) :
    (stripChars l).reverse.dropWhile pySpace = (stripChars l).reverse := by
  have h : (stripChars l).reverse = (l.dropWhile pySpace).reverse.dropWhile pySpace := by
    show ((((l.dropWhile pySpace).reverse.dropWhile pySpace).reverse).reverse) = _
    rw [List.reverse_reverse]
  rw [h]
  exact dropWhile_pySpace_idem _

/-- The join of stripped nonempty fragments has no leading and no
trailing whitespace. -/
theorem joinStripped_clean (frs : List String) :
    (joinStripped frs).dropWhile pySpace = joinStripped frs ∧
    (joinStripped frs).reverse.dropWhile pySpace = (joinStripped frs).reverse := by
  induction frs with
  | nil => exact ⟨rfl, rfl⟩
  | cons s rest ih =>
    obtain ⟨ihl, ihr⟩ := ih
    by_cases hemp : (stripChars s.data).isEmpty
    · constructor
      · simpa [joinStripped, hemp] using ihl
      · simpa [joinStripped, hemp] using ihr
    · have hne : stripChars s.data ≠ [] := by
        simpa [List.isEmpty_iff] using hemp
      have hshape : joinStripped (s :: rest) = stripChars s.data ++ joinStripped rest := by
        simp [joinStripped, hemp]
      constructor
      · rw [hshape]
        exact dropWhile_append_self _ _ (stripChars_leftClean _) hne
      · rw [hshape, List.reverse_append]
        by_cases hjr : joinStripped rest = []
        · simpa [hjr] using stripChars_rightClean s.data
        · have hner : (joinStripped rest).reverse ≠ [] := by simpa using hjr
          exact dropWhile_append_self _ _ ihr hner

/-- The join of stripped fragments is invariant under `stripChars`. -/
theorem stripChars_joinStripped (frs : List String) :
    stripChars (joinStripped frs) = joinStripped frs := by
  obtain ⟨hl, hr⟩ := joinStripped_clean frs
  show (((joinStripped frs).dropWhile pySpace).reverse.dropWhile pySpace).reverse = _
  rw [hl, hr, List.reverse_reverse]

/-! ## Tokenizer lemmas for inert text -/

theorem tokGo_nil (fuel : Nat) : tokGo fuel [] = [] := by
  cases fuel <;> rfl

theorem decodeGo_no_amp (fuel : Nat) :
    ∀ l : List Char, l.length < fuel → '&' ∉ l → decodeGo fuel l = l := by
  induction fuel with
  | zero =>
    intro l h _
    omega
  | succ fuel ih =>
    intro l hlen hamp
    match l with
    | [] => rfl
    | c :: rest =>
      have hc : ¬c = '&' := fun e => hamp (by simp [e])
      have hrest : '&' ∉ rest := fun hm => hamp (List.mem_cons_of_mem _ hm)
      have hlen2 : rest.length < fuel := by
        simp at hlen
        omega
      simp [decodeGo, hc, ih rest hlen2 hrest]

theorem takeWhile_eq_self_of_all (p : Char → Bool) (l : List Char)
    (h : ∀ x ∈ l, p x = true) : l.takeWhile p = l := by
  induction l with
  | nil => rfl
  | cons c cs ih =>
    rw [List.takeWhile_cons, h c (by simp)]
    simp [ih fun x hx => h x (by simp [hx])]

theorem dropWhile_eq_nil_of_all (p : Char → Bool) (l : List Char)
    (h : ∀ x ∈ l, p x = true) : l.dropWhile p = [] := by
  induction l with
  | nil => rfl
  | cons c cs ih =>
    rw [List.dropWhile_cons, h c (by simp)]
    simp [ih fun x hx => h x (by simp [hx])]

/-- A nonempty string containing neither `<` nor `&` parses to a single
text node holding the string itself. -/
theorem parseHtml_pure_text (t : String) (hne : t.data ≠ [])
    (hlt : '<' ∉ t.data) (hamp : '&' ∉ t.data) :
    parseHtmlDoc t = [Node.text t] := by
  obtain ⟨l⟩ := t
  match l with
  | [] => exact absurd rfl hne
  | c :: cs =>
    have hc : ¬c = '<' := fun e => hlt (by simp [e])
    have hall : ∀ x ∈ c :: cs, (x != '<') = true := by
      intro x hx
      have : ¬x = '<' := fun e => hlt (e ▸ hx)
      simpa using this
    have htake : (c :: cs).takeWhile (· != '<') = c :: cs :=
      takeWhile_eq_self_of_all _ _ hall
    have hdrop : (c :: cs).dropWhile (· != '<') = [] :=
      dropWhile_eq_nil_of_all _ _ hall
    have hdec : decodeEnts (c :: cs) = c :: cs :=
      decodeGo_no_amp _ _ (by simp) hamp
    show buildGo (mergeTexts (tokGo ((c :: cs).length + 1) (c :: cs))) [] [] = _
    have htok : tokGo ((c :: cs).length + 1) (c :: cs)
        = [Tok.ttext (String.mk (c :: cs))] := by
      rw [show ((c :: cs).length + 1) = (c :: cs).length + 1 from rfl]
      simp [tokGo, hc, htake, hdrop, hdec, tokGo_nil]
    rw [htok]
    show buildGo [Tok.ttext (String.mk (c :: cs))] [] [] = _
    simp [buildGo, mergeTexts, closeAllFrames]

/-- On a string containing neither `<` nor `&`, the cleaning transform
reduces to a plain strip. -/
theorem cleanFullName_inert (t : String) (hne : t.data ≠ [])
    (hlt : '<' ∉ t.data) (hamp : '&' ∉ t.data) :
    cleanFullName t = String.mk (stripChars t.data) := by
  show getTextStripF (stripSpans (parseHtmlDoc t)) = _
  rw [parseHtml_pure_text t hne hlt hamp]
  show String.mk (joinStripped [t]) = _
  by_cases hemp : (stripChars t.data).isEmpty
  · have : stripChars t.data = [] := by simpa [List.isEmpty_iff] using hemp
    simp [joinStripped, hemp, this]
  · simp [joinStripped, hemp]

/-! ## Step-chain lemmas -/

theorem get_step7_other (soup : List Node) (m : Rec) (k : String)
    (h1 : k ≠ "family_parents") (h2 : k ≠ "family_spouses")
    (h3 : k ≠ "family_children") :
    Rec.get (step7 soup m) k = Rec.get m k := by
  simp only [step7]
  rw [Rec.get_set_ne _ _ _ _ (Ne.symm h3), Rec.get_set_ne _ _ _ _ (Ne.symm h2),
    Rec.get_set_ne _ _ _ _ (Ne.symm h1)]

theorem get_step6_other (soup : List Node) (m : Rec) (k : String)
    (h : k ≠ "inscription") :
    Rec.get (step6 soup m) k = Rec.get m k := by
  simp only [step6]
  rw [Rec.get_set_ne _ _ _ _ (Ne.symm h)]

theorem get_step5x_other (soup : List Node) (m : Rec) (k : String)
    (h : k ≠ "Plot") :
    Rec.get (step5x soup m) k = Rec.get m k := by
  simp only [step5x]
  rw [Rec.get_set_ne _ _ _ _ (Ne.symm h)]

theorem get_step5x_plot (soup : List Node) (m : Rec) :
    ∃ s, Rec.get (step5x soup m) "Plot" = some (Val.vstr s) := by
  simp only [step5x]
  exact ⟨_, Rec.get_set_self _ _ _⟩

theorem get_step5_biography (soup : List Node) (m : Rec) :
    Rec.get (step5 soup m) "biography"
      = some (Val.vstr
          (match findF (fun n => isElemNamed n "div" && hasIdAttr n "partBio") soup with
           | some d => elemTextStrip d
           | none => "")) := by
  simp only [step5]
  rw [Rec.get_set_ne _ _ _ _ (by decide)]
  exact Rec.get_set_self _ _ _

theorem get_step5_bioBy (soup : List Node) (m : Rec) :
    ∃ s, Rec.get (step5 soup m) "bio_by" = some (Val.vstr s) := by
  simp only [step5]
  exact ⟨_, Rec.get_set_self _ _ _⟩

/-- The record assembled by steps 5–7 from `m0`. -/
def assembled (soup : List Node) (m0 : Rec) : Rec :=
  step7 soup (step6 soup (step5x soup (step5 soup m0)))

theorem runPipeline_ok (doc : String) (data m0 : Rec)
    (h3 : step3 (parseHtmlDoc doc) = Except.ok data)
    (h4 : step4 data = Except.ok m0) :
    runPipeline doc =
      ([], Outcome.saved
        ((assembled (parseHtmlDoc doc) m0).filter
          fun kv => !(columnsToDrop.contains kv.1))) := by
  simp only [runPipeline, h3, h4, step10, pdDropColumns, assembled]
  rfl

/-! ## The claims -/

/-- C3: on the specification's end-to-end scenario document the pipeline
writes a record with `full_name = "John Doe"`, `first_name = "John"`,
`birth_year = 1900`, empty `biography` and `Plot`, and no
`inscription`/`family_*` keys. -/
theorem c3_end_to_end_scenario :
    runPipeline sampleDoc = ([], Outcome.saved sampleFinalRec) ∧
    Rec.get sampleFinalRec "full_name" = some (Val.vstr "John Doe") ∧
    Rec.get sampleFinalRec "first_name" = some (Val.vstr "John") ∧
    Rec.get sampleFinalRec "birth_year" = some (Val.vint 1900) ∧
    Rec.get sampleFinalRec "biography" = some (Val.vstr "") ∧
    Rec.get sampleFinalRec "Plot" = some (Val.vstr "") ∧
    Rec.get sampleFinalRec "inscription" = none ∧
    Rec.get sampleFinalRec "family_parents" = none ∧
    Rec.get sampleFinalRec "family_spouses" = none ∧
    Rec.get sampleFinalRec "family_children" = none :=
  ⟨rfl, rfl, rfl, rfl, rfl, rfl, rfl, rfl, rfl, rfl⟩

/-- C2: every record handed to the sink writer lacks the four excluded
keys, while `biography` and `bio_by` are present. -/
theorem c2_sink_projection (doc : String) (log : List String) (r : Rec)
    (h : runPipeline doc = (log, Outcome.saved r)) :
    Rec.get r "inscription" = none ∧
    Rec.get r "family_parents" = none ∧
    Rec.get r "family_spouses" = none ∧
    Rec.get r "family_children" = none ∧
    (∃ s, Rec.get r "biography" = some (Val.vstr s)) ∧
    (∃ s, Rec.get r "bio_by" = some (Val.vstr s)) := by
  simp only [runPipeline] at h
  cases h3 : step3 (parseHtmlDoc doc) with
  | error e =>
    simp only [h3] at h
    simp at h
  | ok data =>
    simp only [h3] at h
    cases h4 : step4 data with
    | error msg =>
      simp only [h4] at h
      simp at h
    | ok m0 =>
      simp only [h4] at h
      rw [show ∀ m : Rec, step10 m =
            ([], Outcome.saved (m.filter fun kv => !(columnsToDrop.contains kv.1)))
          from fun m => rfl] at h
      rw [Prod.mk.injEq] at h
      obtain ⟨-, hsave⟩ := h
      injection hsave with hr
      subst hr
      refine ⟨?_, ?_, ?_, ?_, ?_, ?_⟩
      · exact Rec.get_filter_dropped _ _ _ (by decide)
      · exact Rec.get_filter_dropped _ _ _ (by decide)
      · exact Rec.get_filter_dropped _ _ _ (by decide)
      · exact Rec.get_filter_dropped _ _ _ (by decide)
      · rw [Rec.get_filter_kept _ _ _ (by decide),
          get_step7_other _ _ _ (by decide) (by decide) (by decide),
          get_step6_other _ _ _ (by decide),
          get_step5x_other _ _ _ (by decide),
          get_step5_biography]
        exact ⟨_, rfl⟩
      · rw [Rec.get_filter_kept _ _ _ (by decide),
          get_step7_other _ _ _ (by decide) (by decide) (by decide),
          get_step6_other _ _ _ (by decide),
          get_step5x_other _ _ _ (by decide)]
        exact get_step5_bioBy _ _

/-- Witness for C2 at the concrete scenario document. -/
theorem c2_sink_projection_witness :
    runPipeline sampleDoc = ([], Outcome.saved sampleFinalRec) ∧
    (Rec.get sampleFinalRec "inscription" = none ∧
     Rec.get sampleFinalRec "family_parents" = none ∧
     Rec.get sampleFinalRec "family_spouses" = none ∧
     Rec.get sampleFinalRec "family_children" = none ∧
     (∃ s, Rec.get sampleFinalRec "biography" = some (Val.vstr s)) ∧
     (∃ s, Rec.get sampleFinalRec "bio_by" = some (Val.vstr s))) :=
  ⟨rfl, c2_sink_projection sampleDoc [] sampleFinalRec rfl⟩

/-- C10: the projection with `errors="ignore"` is total — it succeeds on
every record whatever its key set, so the sink write cannot fail because
an excluded column was never computed. -/
theorem c10_drop_ignore_total (r : Rec) :
    pdDropColumns columnsToDrop DropMode.ignore r =
      Except.ok (r.filter fun kv => !(columnsToDrop.contains kv.1)) ∧
    step10 r =
      ([], Outcome.saved (r.filter fun kv => !(columnsToDrop.contains kv.1))) :=
  ⟨rfl, rfl⟩

/-- C1: when the script block is missing, or the object literal cannot
be isolated or deserialized, the run logs one CRITICAL line and exits
via `SystemExit` (non-zero) without writing any output; the three
failure modes carry distinct messages. -/
theorem c1_critical_abort (doc : String)
    (h : findF isFgScript (parseHtmlDoc doc) = none ∨
      ∃ tag, findF isFgScript (parseHtmlDoc doc) = some tag ∧
        (extractFindagrave ((nodeString tag).getD "").data = none ∨
         ∃ g, extractFindagrave ((nodeString tag).getD "").data = some g ∧
           evalObjLiteral g = none)) :
    (∃ e : JsErr, runPipeline doc =
      (["[CRITICAL] JS parsing failed: " ++ e.msg],
       Outcome.exited "JS parsing failed. Check errors.txt.")) ∧
    (runPipeline doc).2.isSaved = false ∧
    JsErr.msg .missingScript ≠ JsErr.msg .noMatch ∧
    JsErr.msg .missingScript ≠ JsErr.msg .evalFailed ∧
    JsErr.msg .noMatch ≠ JsErr.msg .evalFailed := by
  have herr : ∃ e : JsErr, step3 (parseHtmlDoc doc) = Except.error e := by
    rcases h with hnone | ⟨tag, htag, hrest⟩
    · exact ⟨.missingScript, by simp [step3, hnone]⟩
    · rcases hrest with hex | ⟨g, hg, hev⟩
      · exact ⟨.noMatch, by simp [step3, htag, hex]⟩
      · exact ⟨.evalFailed, by simp [step3, htag, hg, hev]⟩
  obtain ⟨e, he⟩ := herr
  have hrun : runPipeline doc =
      (["[CRITICAL] JS parsing failed: " ++ e.msg],
       Outcome.exited "JS parsing failed. Check errors.txt.") := by
    simp [runPipeline, he]
  refine ⟨⟨e, hrun⟩, ?_, by decide, by decide, by decide⟩
  rw [hrun]
  rfl

/-- Witness for C1 at a document with no script element. -/
theorem c1_critical_abort_witness :
    findF isFgScript (parseHtmlDoc docNoScript) = none ∧
    ((∃ e : JsErr, runPipeline docNoScript =
      (["[CRITICAL] JS parsing failed: " ++ e.msg],
       Outcome.exited "JS parsing failed. Check errors.txt.")) ∧
     (runPipeline docNoScript).2.isSaved = false ∧
     JsErr.msg .missingScript ≠ JsErr.msg .noMatch ∧
     JsErr.msg .missingScript ≠ JsErr.msg .evalFailed ∧
     JsErr.msg .noMatch ≠ JsErr.msg .evalFailed) :=
  ⟨rfl, c1_critical_abort docNoScript (Or.inl rfl)⟩

/-- C4 (amended): a failure while normalizing the main fields is caught
and logged with a DATA tag, but because the fields are assembled in one
dictionary literal no partial record exists; the following steps fail to
resolve `main_fields`, and the run crashes in the Plot error handler
with no output written. -/
theorem c4_normalization_failure_crashes (doc : String) (data : Rec) (msg : String)
    (h3 : step3 (parseHtmlDoc doc) = Except.ok data)
    (h4 : step4 data = Except.error msg) :
    runPipeline doc =
      (["[DATA] Failed to extract main_fields: " ++ msg,
        "[DATA] Failed to extract biography info: " ++ nameErrorMsg,
        "[DATA] Failed to extract Plot: " ++ nameErrorMsg],
       Outcome.crashed nameErrorMsg) ∧
    (runPipeline doc).2.isSaved = false := by
  have hrun : runPipeline doc =
      (["[DATA] Failed to extract main_fields: " ++ msg,
        "[DATA] Failed to extract biography info: " ++ nameErrorMsg,
        "[DATA] Failed to extract Plot: " ++ nameErrorMsg],
       Outcome.crashed nameErrorMsg) := by
    simp [runPipeline, h3, h4]
  refine ⟨hrun, ?_⟩
  rw [hrun]
  rfl

/-- Counterexample to C4 as stated: on this document the main-fields
normalization fails (numeric full name); the failure is logged, but the
pipeline does not proceed with a partial record — it crashes with an
uncaught `NameError` and produces no output. -/
theorem c4_no_partial_record_counterexample :
    runPipeline docNumFullName =
      (["[DATA] Failed to extract main_fields: object of type \x27float\x27 has no len()",
        "[DATA] Failed to extract biography info: " ++ nameErrorMsg,
        "[DATA] Failed to extract Plot: " ++ nameErrorMsg],
       Outcome.crashed nameErrorMsg) := rfl

/-- Witness for the amended C4. -/
theorem c4_normalization_failure_crashes_witness :
    step3 (parseHtmlDoc docNumFullName) =
      Except.ok [("fullName", Val.vint 123), ("firstName", Val.vstr "John")] ∧
    step4 [("fullName", Val.vint 123), ("firstName", Val.vstr "John")] =
      Except.error "object of type \x27float\x27 has no len()" ∧
    (runPipeline docNumFullName =
      (["[DATA] Failed to extract main_fields: object of type \x27float\x27 has no len()",
        "[DATA] Failed to extract biography info: " ++ nameErrorMsg,
        "[DATA] Failed to extract Plot: " ++ nameErrorMsg],
       Outcome.crashed nameErrorMsg) ∧
     (runPipeline docNumFullName).2.isSaved = false) :=
  ⟨rfl, rfl, c4_normalization_failure_crashes docNumFullName _ _ rfl rfl⟩

/-- C5 (amended): when a mapped key other than `fullName` is absent from
the payload (and `fullName` is a string), step 4 still produces the full
record and the corresponding output column holds the absent value
(`None`). -/
theorem c5_absent_key_amended (data : Rec) (raw : String) (k out : String)
    (hfull : Rec.get data "fullName" = some (Val.vstr raw))
    (hk : (k, out) ∈ fieldMap) (hne : k ≠ "fullName")
    (habs : Rec.get data k = none) :
    step4 data = Except.ok (mainFieldsOf data (cleanFullName raw)) ∧
    Rec.get (mainFieldsOf data (cleanFullName raw)) out = some Val.vnone := by
  constructor
  · simp [step4, hfull]
  · fin_cases hk
    · exact absurd rfl hne
    all_goals simp [mainFieldsOf, Rec.get, pget, habs]

/-- Counterexample to C5 as stated: with the mapped key `fullName`
absent, the whole normalization step fails and no record is produced at
all. -/
theorem c5_missing_fullname_counterexample :
    step4 payloadNoFullName =
      Except.error "object of type \x27NoneType\x27 has no len()" := rfl

/-- Witness for the amended C5. -/
theorem c5_absent_key_amended_witness :
    Rec.get [("fullName", Val.vstr "X")] "fullName" = some (Val.vstr "X") ∧
    ("firstName", "first_name") ∈ fieldMap ∧
    Rec.get [("fullName", Val.vstr "X")] "firstName" = none ∧
    (step4 [("fullName", Val.vstr "X")] =
        Except.ok (mainFieldsOf [("fullName", Val.vstr "X")] (cleanFullName "X")) ∧
     Rec.get (mainFieldsOf [("fullName", Val.vstr "X")] (cleanFullName "X")) "first_name"
        = some Val.vnone) :=
  ⟨rfl, by decide, rfl,
   c5_absent_key_amended [("fullName", Val.vstr "X")] "X" "firstName" "first_name"
     rfl (by decide) (by decide) rfl⟩

/-- C8: when no element carries the biography identifier `partBio`, the
run still completes (no exception escapes the markup-section extractor)
and the written record has `biography = ""`. -/
theorem c8_missing_biography (doc : String) (data m0 : Rec)
    (hnone : findF (fun n => hasIdAttr n "partBio") (parseHtmlDoc doc) = none)
    (h3 : step3 (parseHtmlDoc doc) = Except.ok data)
    (h4 : step4 data = Except.ok m0) :
    ∃ r, runPipeline doc = ([], Outcome.saved r) ∧
      Rec.get r "biography" = some (Val.vstr "") := by
  have hdiv : findF (fun n => isElemNamed n "div" && hasIdAttr n "partBio")
      (parseHtmlDoc doc) = none := by
    refine findF_none_mono _ _ ?_ _ hnone
    intro n hq
    exact (Bool.and_eq_true _ _).mp hq |>.2
  refine ⟨_, runPipeline_ok doc data m0 h3 h4, ?_⟩
  rw [Rec.get_filter_kept _ _ _ (by decide)]
  unfold assembled
  rw [get_step7_other _ _ _ (by decide) (by decide) (by decide),
    get_step6_other _ _ _ (by decide), get_step5x_other _ _ _ (by decide),
    get_step5_biography, hdiv]

/-- Witness for C8 at the scenario document. -/
theorem c8_missing_biography_witness :
    findF (fun n => hasIdAttr n "partBio") (parseHtmlDoc sampleDoc) = none ∧
    step3 (parseHtmlDoc sampleDoc) = Except.ok samplePayload ∧
    (∃ r, runPipeline sampleDoc = ([], Outcome.saved r) ∧
      Rec.get r "biography" = some (Val.vstr "")) :=
  ⟨rfl, rfl, c8_missing_biography sampleDoc samplePayload _ rfl rfl rfl⟩

/-- C9 (amended): whenever the record exists, the Plot lookup cannot
raise and the `Plot` key is always present (here always a string); but
when the record was never assembled the handler's own assignment raises,
so the Plot error handler does not in fact set the field in every
exceptional run. -/
theorem c9_plot_always_present_amended (doc : String) (data m0 : Rec)
    (h3 : step3 (parseHtmlDoc doc) = Except.ok data)
    (h4 : step4 data = Except.ok m0) :
    (∃ s, Rec.get (step5x (parseHtmlDoc doc) (step5 (parseHtmlDoc doc) m0)) "Plot"
        = some (Val.vstr s)) ∧
    ∃ r s, runPipeline doc = ([], Outcome.saved r) ∧
      Rec.get r "Plot" = some (Val.vstr s) := by
  obtain ⟨s, hs⟩ := get_step5x_plot (parseHtmlDoc doc) (step5 (parseHtmlDoc doc) m0)
  refine ⟨⟨s, hs⟩, _, s, runPipeline_ok doc data m0 h3 h4, ?_⟩
  rw [Rec.get_filter_kept _ _ _ (by decide)]
  unfold assembled
  rw [get_step7_other _ _ _ (by decide) (by decide) (by decide),
    get_step6_other _ _ _ (by decide)]
  exact hs

/-- Counterexample to C9 as stated: on this document an exception is
raised during Plot extraction (third DATA line) but the handler's own
`main_fields["Plot"] = ""` raises `NameError` in turn: the run crashes
uncaught and no Plot field is ever set. -/
theorem c9_plot_handler_crash_counterexample :
    runPipeline docBoolFullName =
      (["[DATA] Failed to extract main_fields: object of type \x27bool\x27 has no len()",
        "[DATA] Failed to extract biography info: " ++ nameErrorMsg,
        "[DATA] Failed to extract Plot: " ++ nameErrorMsg],
       Outcome.crashed nameErrorMsg) := rfl

/-- Witness for the amended C9. -/
theorem c9_plot_always_present_amended_witness :
    step3 (parseHtmlDoc sampleDoc) = Except.ok samplePayload ∧
    ((∃ s, Rec.get (step5x (parseHtmlDoc sampleDoc)
        (step5 (parseHtmlDoc sampleDoc)
          (mainFieldsOf samplePayload
            (cleanFullName "<span class=\"prefix\">Pvt</span> John Doe")))) "Plot"
        = some (Val.vstr s)) ∧
     ∃ r s, runPipeline sampleDoc = ([], Outcome.saved r) ∧
       Rec.get r "Plot" = some (Val.vstr s)) :=
  ⟨rfl, c9_plot_always_present_amended sampleDoc samplePayload _ rfl rfl⟩

/-- C6: with the family section present, each category string is the
`", ".join` of the visible texts of every hyperlink in that category's
subtree, in document order (the spec-side collector `specLinkTextsF`);
a category with no subtree yields the empty string. -/
theorem c6_family_strings_document_order (soup : List Node) (sec : Node)
    (relation : String) (m : Rec)
    (hsec : findF isFamilySection soup = some sec)
    (hrel : relation ∈ ["parents", "spouses", "children"]) :
    (∀ blk, findF (isRelDiv relation) sec.children = some blk →
      relLinkTexts (findF isFamilySection soup) relation
          = specLinkTextsF blk.children ∧
        Rec.get (step7 soup m) ("family_" ++ relation)
          = some (Val.vstr (String.intercalate ", " (specLinkTextsF blk.children)))) ∧
    (findF (isRelDiv relation) sec.children = none →
      Rec.get (step7 soup m) ("family_" ++ relation) = some (Val.vstr "")) := by
  constructor
  · intro blk hblk
    have htexts : relLinkTexts (findF isFamilySection soup) relation
        = specLinkTextsF blk.children := by
      rw [hsec]
      simp only [relLinkTexts, hblk]
      exact findAll_map_eq_spec _
    refine ⟨htexts, ?_⟩
    fin_cases hrel
    · show Rec.get (step7 soup m) "family_parents" = _
      simp only [step7]
      rw [Rec.get_set_ne _ _ _ _ (by decide), Rec.get_set_ne _ _ _ _ (by decide),
        Rec.get_set_self, htexts]
    · show Rec.get (step7 soup m) "family_spouses" = _
      simp only [step7]
      rw [Rec.get_set_ne _ _ _ _ (by decide), Rec.get_set_self, htexts]
    · show Rec.get (step7 soup m) "family_children" = _
      simp only [step7]
      rw [Rec.get_set_self, htexts]
  · intro hnoblk
    have hempty : relLinkTexts (findF isFamilySection soup) relation = [] := by
      rw [hsec]
      simp only [relLinkTexts, hnoblk]
    have hnilj : String.intercalate ", " ([] : List String) = "" := by decide
    fin_cases hrel
    · show Rec.get (step7 soup m) "family_parents" = _
      simp only [step7]
      rw [Rec.get_set_ne _ _ _ _ (by decide), Rec.get_set_ne _ _ _ _ (by decide),
        Rec.get_set_self, hempty, hnilj]
    · show Rec.get (step7 soup m) "family_spouses" = _
      simp only [step7]
      rw [Rec.get_set_ne _ _ _ _ (by decide), Rec.get_set_self, hempty, hnilj]
    · show Rec.get (step7 soup m) "family_children" = _
      simp only [step7]
      rw [Rec.get_set_self, hempty, hnilj]

/-- Witness for C6 on a concrete family section with two parents, in
document order. -/
theorem c6_family_strings_document_order_witness :
    findF isFamilySection famForest =
      some (Node.elem "section" [("id", "family-members")]
        [Node.elem "div" [("data-relationship", "parents")]
          [Node.elem "a" [("href", "m1")] [Node.text "Jane Doe"],
           Node.elem "a" [("href", "m2")] [Node.text "Jim Doe"]]]) ∧
    ("parents" : String) ∈ ["parents", "spouses", "children"] ∧
    Rec.get (step7 famForest []) "family_parents"
      = some (Val.vstr "Jane Doe, Jim Doe") := by
  refine ⟨rfl, by decide, ?_⟩
  have h := (c6_family_strings_document_order famForest _ "parents" [] rfl
    (by decide)).1
    (Node.elem "div" [("data-relationship", "parents")]
      [Node.elem "a" [("href", "m1")] [Node.text "Jane Doe"],
       Node.elem "a" [("href", "m2")] [Node.text "Jim Doe"]]) rfl
  exact h.2.trans rfl

/-- C7 (amended): the full-name cleaning transform is idempotent on
every string whose once-cleaned output contains neither `<` nor `&`
(re-parsing such output is inert; in general a cleaned output can
contain markup or character references that a second parse consumes, so
the transform is not idempotent on all strings). -/
theorem c7_clean_idempotent_amended (s : String)
    (h1 : '<' ∉ (cleanFullName s).data) (h2 : '&' ∉ (cleanFullName s).data) :
    cleanFullName (cleanFullName s) = cleanFullName s := by
  have hstrip : stripChars (cleanFullName s).data = (cleanFullName s).data := by
    show stripChars (joinStripped (textFrags (stripSpans (parseHtmlDoc s)))) = _
    exact stripChars_joinStripped _
  by_cases hnil : (cleanFullName s).data = []
  · have he : cleanFullName s = "" := by
      have hmk : cleanFullName s = String.mk (cleanFullName s).data := rfl
      rw [hmk, hnil]
    rw [he]
    rfl
  · have hinert := cleanFullName_inert (cleanFullName s) hnil h1 h2
    rw [hinert, hstrip]

/-- Counterexample to C7 as stated: cleaning can emit text that parses
as markup on a second pass, so the transform applied to its own output
can shrink further. -/
theorem c7_not_idempotent_counterexample :
    cleanFullName (cleanFullName "a <<b>span>x") ≠ cleanFullName "a <<b>span>x" := by
  decide

/-- Witness for the amended C7. -/
theorem c7_clean_idempotent_amended_witness :
    '<' ∉ (cleanFullName "<span class=\"prefix\">Pvt</span> John Doe").data ∧
    '&' ∉ (cleanFullName "<span class=\"prefix\">Pvt</span> John Doe").data ∧
    cleanFullName (cleanFullName "<span class=\"prefix\">Pvt</span> John Doe")
      = cleanFullName "<span class=\"prefix\">Pvt</span> John Doe" :=
  ⟨by decide, by decide, c7_clean_idempotent_amended _ (by decide) (by decide)⟩

end Scrape
